import Mathlib

/-!
Verification of the go-config configuration loader (`configserver.go`).

The development shallowly embeds the file-resolution, merge and reload engine:
the `option` record and its functional options, encrypted-file detection
(`isSettingsFileEncrypted`), the labeled include-resolution loop of
`LoadFromFile` (`resolveLoop`, with an explicit fuel argument standing for the
unbounded Go `for` loop), the reverse-order merge phase (`loadConfigFiles`),
the one-shot watch latch (`watch`), the lock discipline of the public methods
(as event traces), and the Spring config-server getters (`remoteGet`,
`remoteGetString`).

The external viper store is modelled as an association list of flattened
dotted keys; `ReadConfig` replaces it and `MergeConfig` overlays it with the
new entries taking precedence, which is exactly the observable lookup
behaviour of viper for leaf keys. Go errors are modelled by the `Err` tree
recording every `errors.Wrapf`/`errors.Errorf` layer the code adds, so that
"the error names the offending path" is a decidable structural property.

String manipulation from the Go standard library (`strings.HasSuffix`,
`strings.TrimSuffix`, `strings.TrimLeft`, `filepath.Ext`, `filepath.Dir`,
`filepath.Join`) is reimplemented over the character list of a `String` so
that every definition evaluates by kernel reduction; `filepath.Dir` and
`filepath.Join` are simplified in that they do not clean redundant
separators, which none of the verified properties depend on.
-/

namespace GoConfig

/-! ## Character-level string helpers (Go strings / path functions) -/

/-- Rebuild a `String` from its characters. -/
def ofChars (l : List Char) : String := String.mk l

/-- Go `strings.HasSuffix` on character lists. -/
def hasSuffixC (s sfx : List Char) : Bool :=
  List.drop (s.length - sfx.length) s == sfx

/-- Go `strings.HasSuffix s sfx`. -/
def hasSuffix (s sfx : String) : Bool := hasSuffixC s.data sfx.data

/-- Go `strings.TrimSuffix s sfx`: drop the suffix when present. -/
def trimSuffix (s sfx : String) : String :=
  if hasSuffix s sfx then ofChars (s.data.take (s.data.length - sfx.data.length)) else s

/-- Split a character list at every occurrence of `c` (Go `strings.Split`). -/
def splitOnChar (c : Char) : List Char → List (List Char)
  | [] => [[]]
  | x :: xs =>
    match splitOnChar c xs with
    | [] => [[x]]
    | h :: t => if x == c then [] :: h :: t else (x :: h) :: t

/-- Join character-list pieces with separator `c`. -/
def joinWithChar (c : Char) : List (List Char) → List Char
  | [] => []
  | [x] => x
  | x :: xs => x ++ c :: joinWithChar c xs

/-- Go `filepath.Ext`: the suffix of the final path element starting at its
final dot, empty when the final element has no dot. -/
def extOf (p : String) : String :=
  let base := (splitOnChar '/' p.data).getLastD []
  let parts := splitOnChar '.' base
  if parts.length ≤ 1 then "" else ofChars ('.' :: parts.getLastD [])

/-- Go `strings.TrimLeft s "."`: drop every leading dot. -/
def trimLeftDots (s : String) : String :=
  ofChars (s.data.dropWhile (fun c => c == '.'))

/-- The serialization type the code derives for a file:
`strings.TrimLeft(filepath.Ext(strings.TrimSuffix(path, encryptedSuffix)), ".")`
(configserver.go line 569). -/
def configTypeOf (encSuffix p : String) : String :=
  trimLeftDots (extOf (trimSuffix p encSuffix))

/-- Go `filepath.Dir`, simplified (no separator cleaning): everything before
the final slash, or `"."` when there is none. -/
def dirPath (p : String) : String :=
  let parts := splitOnChar '/' p.data
  if parts.length ≤ 1 then "." else ofChars (joinWithChar '/' parts.dropLast)

/-- Go `filepath.Join` of a directory and a relative path, simplified
(no cleaning). -/
def joinPath (d f : String) : String := d ++ "/" ++ f

/-! ## The store (viper collaborator, observable behaviour) -/

/-- A configuration value as deserialized into the store. -/
inductive Value where
  | vStr (s : String)
  | vInt (n : Int)
  | vBool (b : Bool)
  | vNull
deriving DecidableEq

/-- The viper store, modelled as an association list from flattened dotted
keys to values; the first binding of a key is its current value. -/
abbrev Store := List (String × Value)

/-- Reading one key from the store (viper `Get` for a leaf key). -/
def lookupStore (st : Store) (k : String) : Option Value := st.lookup k

/-- Viper `MergeConfig` overlays the new entries over the store: on a key
conflict the new entries win, other keys are unioned (spec glossary
"Merge"). With first-binding-wins lookup this is list append. -/
def mergeStore (newEntries old : Store) : Store := newEntries ++ old

/-- First-some choice on optional values. -/
def optOr (a b : Option Value) : Option Value :=
  match a with
  | some v => some v
  | none => b

/-- Viper `GetString` coercion of a stored value (`cast.ToStringE`);
a missing key reads as the empty string. -/
def valueToString : Option Value → String
  | some (Value.vStr s) => s
  | some (Value.vInt n) => toString n
  | some (Value.vBool b) => if b then "true" else "false"
  | some Value.vNull => ""
  | none => ""

/-- `s.GetString key` against the modelled store. -/
def storeGetString (st : Store) (k : String) : String :=
  valueToString (lookupStore st k)

/-! ## Errors

Go errors are modelled structurally. `wrapfPath fmt p inner` stands for
`errors.Wrapf(inner, fmt-with-%s, p)` — every such call site in the code
passes exactly one path argument. `errorfPath` stands for `errors.Errorf`
with one path argument, `wrapCtx` for `errors.Wrap` with a plain context
string, `baseErr` for an error produced by a collaborator (os, viper, the
AES reader wrapper) and returned as-is. -/

inductive Err where
  | wrapfPath (fmt : String) (path : String) (inner : Err)
  | errorfPath (fmt : String) (path : String)
  | wrapCtx (ctx : String) (inner : Err)
  | baseErr (msg : String)
deriving DecidableEq

/-- Whether the error chain names the path `p` anywhere: true exactly when
some `errors.Wrapf`/`errors.Errorf` layer received `p` as its argument. -/
def errMentions : Err → String → Bool
  | Err.wrapfPath _ q inner, p => q == p || errMentions inner p
  | Err.errorfPath _ q, p => q == p
  | Err.wrapCtx _ inner, p => errMentions inner p
  | Err.baseErr _, _ => false

/-! ## Options (configserver.go lines 433-503) -/

/-- The `option` struct. `aesKey` is `none` for the Go `nil` slice; Go field
defaults are the zero values. The watch callback function value is dropped
(only its presence drives control flow). -/
structure option where
  enableInclude : Bool := false
  aesKey : Option (List Nat) := none
  encryptedSuffix : String := ""
  watchModify : Bool := false
deriving DecidableEq

/-- Go `new(option)`: the zero-valued record. -/
def optionNew : option := {}

/-- `defaultEncryptSuffix` (line 444). -/
def defaultEncryptSuffix : String := ".enc"

/-- `(*option).fillDefault` (lines 447-450): sets the encrypted suffix. -/
def fillDefault (o : option) : option := { o with encryptedSuffix := defaultEncryptSuffix }

/-- The Go `Option` functional-option type (`func(*option) error`). -/
def OptionF := option → Except Err option

/-- `WithEnableInclude` (lines 466-471). -/
def WithEnableInclude : OptionF := fun o => Except.ok { o with enableInclude := true }

/-- `WithAesEncrypt` (lines 474-483): rejects an empty key. -/
def WithAesEncrypt (key : List Nat) : OptionF := fun o =>
  if key.isEmpty then Except.error (Err.baseErr "aes key is empty")
  else Except.ok { o with aesKey := some key }

/-- `WithEncryptedFileSuffix` (lines 486-491). -/
def WithEncryptedFileSuffix (sfx : String) : OptionF := fun o =>
  Except.ok { o with encryptedSuffix := sfx }

/-- `WithWatchFileModified` (lines 497-503); the callback value is dropped. -/
def WithWatchFileModified : OptionF := fun o =>
  Except.ok { o with watchModify := true }

/-- `(*option).applyOptfs` (lines 452-460): apply the options in order,
stopping at the first error. -/
def applyOptfs (o : option) : List OptionF → Except Err option
  | [] => Except.ok o
  | f :: rest =>
    match f o with
    | Except.error e => Except.error e
    | Except.ok o1 => applyOptfs o1 rest

/-- `settingsIncludeKey` (line 505). -/
def settingsIncludeKey : String := "include"

/-- `isSettingsFileEncrypted` (lines 508-519): nil key never encrypted;
otherwise encrypted iff the suffix is non-empty and the name ends with it. -/
def isSettingsFileEncrypted (opt : option) (fname : String) : Bool :=
  if opt.aesKey.isNone then false
  else if (!(opt.encryptedSuffix == "")) && hasSuffix fname opt.encryptedSuffix then true
  else false

/-! ## The filesystem model -/

/-- One file on disk, as the loader observes it. `parses` maps each
serialization type to the flattened key-value entries viper produces when it
parses the byte stream that reaches the store under that type; a type absent
from the table is a parse failure. `decryptOk`/`decryptErrMsg` model
`encrypt.NewAesReaderWrapper` succeeding or failing on this file, and
`isRegular` models `gutils.IsFile`. -/
structure SrcFile where
  parses : List (String × Store)
  isRegular : Bool := true
  decryptOk : Bool := true
  decryptErrMsg : String := ""
deriving DecidableEq

/-- The filesystem: an association list from path to file; a missing path
makes `os.Open` fail. -/
abbrev Fs := List (String × SrcFile)

/-- The paths present on disk. -/
def fsKeys (fs : Fs) : List String := fs.map Prod.fst

/-- The entries a path contributes when parsed under type `ctype`
(`none` when the file is missing or does not parse under that type). -/
def fileEntries (fs : Fs) (ctype p : String) : Option Store :=
  (fs.lookup p).bind (fun f => f.parses.lookup ctype)

/-- Value of key `k` in the parse of file `p` under `ctype`. -/
def fileLookup (fs : Fs) (ctype p k : String) : Option Value :=
  (fileEntries fs ctype p).bind (fun es => es.lookup k)

/-- Value of `k` in the file earliest in discovery order that defines it. -/
def chainLookup (fs : Fs) (ctype : String) : List String → String → Option Value
  | [], _ => none
  | p :: rest, k => optOr (fileLookup fs ctype p k) (chainLookup fs ctype rest k)

/-! ## The include-resolution loop of LoadFromFile (lines 562-598) -/

/-- Reading one file inside the resolution loop: decide encryption, build the
AES wrapper when needed, and `ReadConfig` (replace) the resulting stream.
Mirrors lines 569-583: the wrapper-construction failure is returned bare
(`return err`, line 573), parse failures are wrapped with the path. -/
def readOne (opt : option) (cur : String) (f : SrcFile) : Except Err Store :=
  if isSettingsFileEncrypted opt cur then
    if f.decryptOk then
      match f.parses.lookup (configTypeOf opt.encryptedSuffix cur) with
      | some es => Except.ok es
      | none => Except.error
          (Err.wrapfPath "load encrypted config from file" cur (Err.baseErr "viper: parse error"))
    else Except.error (Err.baseErr f.decryptErrMsg)
  else
    match f.parses.lookup (configTypeOf opt.encryptedSuffix cur) with
    | some es => Except.ok es
    | none => Except.error
        (Err.wrapfPath "load config from file" cur (Err.baseErr "viper: parse error"))

/-- Result of the resolution loop: the discovered chain, the store contents
(the last successful `ReadConfig`), the serialization type currently set on
the viper instance, and the aborting error when there is one. -/
structure ResOut where
  chain : List String
  store : Store
  ctype : String
  err : Option Err
deriving DecidableEq

/-- The labeled loop `RECUR_INCLUDE_LOOP` (lines 562-598). Each iteration
opens `cur`, sets the config type from the suffix-stripped extension of
`cur`, replaces the store with the parse of `cur`, reads the `include` key
back, joins it to `cfgDir` (the entry-file directory, fixed outside the
loop), stops when it is empty or already in the chain (cycle guard, no
error), and otherwise appends it and continues. The Go loop is unbounded;
`fuel` bounds the iteration count, and `resolveLoop_terminates` below shows
`fs.length + 2` fuel always suffices. -/
def resolveLoop (fs : Fs) (opt : option) (cfgDir : String) :
    Nat → List String → String → Store → String → Option ResOut
  | 0, _, _, _, _ => none
  | fuel + 1, cfgFiles, cur, store, ctype =>
    match fs.lookup cur with
    | none =>
      some ⟨cfgFiles, store, ctype,
        some (Err.wrapfPath "open config file" cur (Err.baseErr "open: no such file or directory"))⟩
    | some f =>
      match readOne opt cur f with
      | Except.error e =>
        some ⟨cfgFiles, store, configTypeOf opt.encryptedSuffix cur, some e⟩
      | Except.ok store1 =>
        if storeGetString store1 settingsIncludeKey == "" then
          some ⟨cfgFiles, store1, configTypeOf opt.encryptedSuffix cur, none⟩
        else
          if cfgFiles.contains (joinPath cfgDir (storeGetString store1 settingsIncludeKey)) then
            some ⟨cfgFiles, store1, configTypeOf opt.encryptedSuffix cur, none⟩
          else
            resolveLoop fs opt cfgDir fuel
              (cfgFiles ++ [joinPath cfgDir (storeGetString store1 settingsIncludeKey)])
              (joinPath cfgDir (storeGetString store1 settingsIncludeKey))
              store1
              (configTypeOf opt.encryptedSuffix cur)

/-- Termination measure for the loop: the number of on-disk paths not yet in
the chain, plus one when the current path is itself on disk. -/
def resolveMeasure (fs : Fs) (cfgFiles : List String) (cur : String) : Nat :=
  ((fsKeys fs).filter (fun p => !cfgFiles.contains p)).length +
    (if (fsKeys fs).contains cur then 1 else 0)

/-! ## The merge phase: loadConfigFiles (lines 612-647) -/

/-- One iteration of the merge loop: open the file, decide encryption, and
`MergeConfig` the stream under the single type `ctype` currently set on the
viper instance (`loadConfigFiles` never calls `SetConfigType`). On error the
store is left as it was; the wrapper-construction failure is again returned
bare (line 628). -/
def mergeOne (fs : Fs) (opt : option) (ctype path : String) (store : Store) :
    Store × Option Err :=
  match fs.lookup path with
  | none =>
    (store, some (Err.wrapfPath "open config file" path (Err.baseErr "open: no such file or directory")))
  | some f =>
    if isSettingsFileEncrypted opt path then
      if f.decryptOk then
        match f.parses.lookup ctype with
        | some es => (mergeStore es store, none)
        | none => (store, some (Err.wrapfPath "merge encrypted config file" path (Err.baseErr "viper: parse error")))
      else (store, some (Err.baseErr f.decryptErrMsg))
    else
      match f.parses.lookup ctype with
      | some es => (mergeStore es store, none)
      | none => (store, some (Err.wrapfPath "merge config file" path (Err.baseErr "viper: parse error")))

/-- Merge the given files in the given processing order, stopping at the
first failure and keeping the merges already applied. -/
def loadFilesSeq (fs : Fs) (opt : option) (ctype : String) :
    List String → Store → Store × Option Err
  | [], st => (st, none)
  | p :: rest, st =>
    match mergeOne fs opt ctype p st with
    | (st1, none) => loadFilesSeq fs opt ctype rest st1
    | (st1, some e) => (st1, some e)

/-- `loadConfigFiles` (lines 612-647): iterate `cfgFiles` from the last index
down to 0, i.e. process the reversed chain, merging each file. -/
def loadConfigFiles (fs : Fs) (opt : option) (ctype : String)
    (cfgFiles : List String) (st : Store) : Store × Option Err :=
  loadFilesSeq fs opt ctype cfgFiles.reverse st

/-- Modelled from the spec (for claim C5 only): a merge phase that, as the
spec words it, determines the serialization type per file from the own
extension of that file, with the encrypted suffix stripped first. The code under
`src/` instead uses one type for the whole phase; this definition exists to
be compared with `loadConfigFiles`. -/
def specLoadFilesSeq (fs : Fs) (opt : option) : List String → Store → Store × Option Err
  | [], st => (st, none)
  | p :: rest, st =>
    match mergeOne fs opt (configTypeOf opt.encryptedSuffix p) p st with
    | (st1, none) => specLoadFilesSeq fs opt rest st1
    | (st1, some e) => (st1, some e)

/-- Per-file-type merge orchestration following the spec words (see
`specLoadFilesSeq`). -/
def specLoadConfigFiles (fs : Fs) (opt : option) (cfgFiles : List String) (st : Store) :
    Store × Option Err :=
  specLoadFilesSeq fs opt cfgFiles.reverse st

/-! ## LoadFromFile (lines 540-610) -/

/-- Observable outcome of `LoadFromFile`: the resolved chain, the final store
contents, and the returned error if any. -/
structure LoadOutcome where
  chain : List String
  store : Store
  err : Option Err
deriving DecidableEq

/-- `LoadFromFile` (lines 540-610): check the entry is a regular file, apply
the options over the defaults, run the include-resolution loop from the
entry (with `cfgDir` fixed to the entry-file directory), then merge the
chain in reverse via `loadConfigFiles`, passing the serialization type left
behind by the loop. `none` stands for resolution fuel running out, which
`resolveLoop_terminates` rules out for the fuel used here. -/
def LoadFromFile (fs : Fs) (s0 : Store) (entryFile : String) (opts : List OptionF) :
    Option LoadOutcome :=
  match fs.lookup entryFile with
  | none =>
    some ⟨[entryFile], s0,
      some (Err.wrapfPath "check config file path" entryFile (Err.baseErr "stat: no such file or directory"))⟩
  | some f =>
    if f.isRegular then
      match applyOptfs (fillDefault optionNew) opts with
      | Except.error e => some ⟨[entryFile], s0, some (Err.wrapCtx "apply options" e)⟩
      | Except.ok opt =>
        match resolveLoop fs opt (dirPath entryFile) (fs.length + 2) [entryFile] entryFile s0 "" with
        | none => none
        | some r =>
          match r.err with
          | some e => some ⟨r.chain, r.store, some e⟩
          | none =>
            match loadConfigFiles fs opt r.ctype r.chain r.store with
            | (st, some e) => some ⟨r.chain, st, some e⟩
            | (st, none) => some ⟨r.chain, st, none⟩
    else some ⟨[entryFile], s0, some (Err.errorfPath "is not a file" entryFile)⟩

/-! ## The watch latch (lines 280, 521-537) -/

/-- Watch-relevant state of one configuration instance: the `sync.Once`
latch (`watchOnce`), the number of filesystem-watch subscriptions started
(`gutils.WatchFileChanging` calls), and the file set of the one
subscription. -/
structure WatchState where
  armed : Bool
  subs : Nat
  watchedFiles : List String
deriving DecidableEq

/-- A fresh instance (`New`, line 297): latch unfired, no subscription. -/
def watchInit : WatchState := ⟨false, 0, []⟩

/-- `(*config).watch` (lines 521-537): `watchOnce.Do` runs its body — which
starts exactly one filesystem-watch subscription on `files` — only when the
latch has not fired; afterwards every call is a no-op. -/
def watch (st : WatchState) (files : List String) : WatchState :=
  if st.armed then st
  else { armed := true, subs := st.subs + 1, watchedFiles := files }

/-! ## Lock discipline of the public methods (claim C9)

Each public method is transliterated into the sequence of lock operations
and raw store accesses its body performs; `wellLocked` checks that every
store read happens under at least the read lock and every store mutation
under the write lock. -/

/-- Primitive events: instance-lock operations and raw viper accesses. -/
inductive Ev where
  | rLock
  | rUnlock
  | wLock
  | wUnlock
  | storeRead
  | storeWrite
deriving DecidableEq

/-- What the single caller currently holds of the reader-writer lock. -/
inductive LockSt where
  | free
  | reading
  | writing
deriving DecidableEq

/-- Run the lock automaton: reads need the read or write lock, mutations
need the write lock, and the trace must end with the lock released. -/
def wellLockedFrom : LockSt → List Ev → Bool
  | st, [] => st == LockSt.free
  | st, Ev.rLock :: rest => st == LockSt.free && wellLockedFrom LockSt.reading rest
  | st, Ev.rUnlock :: rest => st == LockSt.reading && wellLockedFrom LockSt.free rest
  | st, Ev.wLock :: rest => st == LockSt.free && wellLockedFrom LockSt.writing rest
  | st, Ev.wUnlock :: rest => st == LockSt.writing && wellLockedFrom LockSt.free rest
  | st, Ev.storeRead :: rest => (st == LockSt.reading || st == LockSt.writing) && wellLockedFrom st rest
  | st, Ev.storeWrite :: rest => (st == LockSt.writing) && wellLockedFrom st rest

/-- A method trace is well locked when it runs from and back to the free
lock state with every store access covered. -/
def wellLocked (t : List Ev) : Bool := wellLockedFrom LockSt.free t

/-- `Get`/`GetString`/`GetStringSlice`/`GetBool`/`GetInt`/`GetInt64`/
`GetDuration`/`Unmarshal`/`UnmarshalKey`/`GetStringMap`/`GetStringMapString`
(lines 309-411): `RLock; s.v.<read>; RUnlock`. -/
def getTrace : List Ev := [Ev.rLock, Ev.storeRead, Ev.rUnlock]

/-- `Set` (lines 365-370): `Lock; s.v.Set; Unlock`. -/
def setTrace : List Ev := [Ev.wLock, Ev.storeWrite, Ev.wUnlock]

/-- `IsSet` (lines 373-378): takes the write lock around a read. -/
def isSetTrace : List Ev := [Ev.wLock, Ev.storeRead, Ev.wUnlock]

/-- `ReadConfig` (lines 413-418): `Lock; s.v.ReadConfig; Unlock`. -/
def readConfigTrace : List Ev := [Ev.wLock, Ev.storeWrite, Ev.wUnlock]

/-- `MergeConfig` (lines 420-425): `Lock; s.v.MergeConfig; Unlock`. -/
def mergeConfigTrace : List Ev := [Ev.wLock, Ev.storeWrite, Ev.wUnlock]

/-- `LoadFromConfigServer` (lines 652-666): after the fetch it runs
`srv.Map(s.v.Set)` — one raw `s.v.Set` per remote key, with the instance
lock never taken (`n` is the number of remote entries). -/
def loadFromConfigServerTrace (n : Nat) : List Ev := List.replicate n Ev.storeWrite

/-- `LoadFromConfigServerWithRawYaml` (lines 673-695): raw
`s.v.SetConfigType("yaml")` followed by raw `s.v.ReadConfig`, with the
instance lock never taken. -/
def loadFromConfigServerWithRawYamlTrace : List Ev := [Ev.storeWrite, Ev.storeWrite]

/-! ## Spring config-server getters (lines 74-97) -/

/-- Outcome of a Go call that can panic. -/
inductive GoResult (α : Type) where
  | ok (a : α)
  | panicked (msg : String)
deriving DecidableEq

/-- `SpringConfigServer.Get` (lines 74-88): scan the property sources in
order and return the value of the first source whose map holds the key
(each source map is an association list with the exact-match scan of the Go
range loop). -/
def remoteGet : List (List (String × Value)) → String → Option Value
  | [], _ => none
  | src :: rest, name =>
    match src.lookup name with
    | some v => some v
    | none => remoteGet rest name

/-- `SpringConfigServer.GetString` (lines 91-97): on a hit it runs the
unchecked assertion `val.(string)`, which panics unless the stored value is
a string; on a miss it returns `("", false)`. -/
def remoteGetString (sources : List (List (String × Value))) (name : String) :
    GoResult (String × Bool) :=
  match remoteGet sources name with
  | some (Value.vStr s) => GoResult.ok (s, true)
  | some _ => GoResult.panicked "interface conversion: interface is not string"
  | none => GoResult.ok ("", false)

/-! ## Concrete fixtures used by counterexamples and witnesses -/

/-- The default-filled option record (`new(option).fillDefault()`, no
functional options). -/
def optDefault : option := fillDefault optionNew

/-- Two files where the entry includes the other: `d/a.yml` sets
`include: b.yml` and `a: 2`; `d/b.yml` sets `b: 1`. -/
def fsInc : Fs :=
  [("d/a.yml", { parses := [("yml", [("include", Value.vStr "b.yml"), ("a", Value.vInt 2)])] }),
   ("d/b.yml", { parses := [("yml", [("b", Value.vInt 1)])] })]

/-- A mutually-including pair: `d/a.yml` includes `b.yml` and `d/b.yml`
includes `a.yml` back. -/
def fsCyc : Fs :=
  [("d/a.yml", { parses := [("yml", [("include", Value.vStr "b.yml")])] }),
   ("d/b.yml", { parses := [("yml", [("include", Value.vStr "a.yml")])] })]

/-- An encrypted entry file on which the AES reader wrapper fails to build. -/
def fsEnc : Fs :=
  [("d/s.yml.enc",
    { parses := [("yml", [("k", Value.vInt 1)])],
      decryptOk := false, decryptErrMsg := "cipher: bad key" })]

/-- A chain mixing extensions: the YAML entry includes a TOML file; each file
parses only under its own type. -/
def fsMix : Fs :=
  [("d/a.yml", { parses := [("yml", [("include", Value.vStr "b.toml"), ("a", Value.vInt 2)])] }),
   ("d/b.toml", { parses := [("toml", [("b", Value.vInt 1)])] })]

/-- A three-file chain whose middle file fails to parse: used to observe the
merge phase stopping at the first failure with no rollback. -/
def fs7 : Fs :=
  [("a.yml", { parses := [("yml", [("a", Value.vInt 1)])] }),
   ("bad.yml", { parses := [] }),
   ("c.yml", { parses := [("yml", [("c", Value.vInt 3)])] })]

/-- Entry/include pair for the merge-precedence witness: the entry overrides
`a` and the included file contributes `b`. -/
def fsC1 : Fs :=
  [("e.yml", { parses := [("yml", [("include", Value.vStr "base.yml"), ("a", Value.vInt 2)])] }),
   ("base.yml", { parses := [("yml", [("a", Value.vInt 1), ("b", Value.vInt 1)])] })]

/-- The concrete merged store `loadConfigFiles` produces on `fsC1` starting
from the empty store. -/
def c1Merged : Store :=
  [("include", Value.vStr "base.yml"), ("a", Value.vInt 2), ("a", Value.vInt 1), ("b", Value.vInt 1)]

/-- The concrete wrapped error `LoadFromFile` returns for a missing entry
file named `x.yml`. -/
def c4WitnessErr : Err :=
  Err.wrapfPath "check config file path" "x.yml" (Err.baseErr "stat: no such file or directory")

/-! # Helper lemmas -/

theorem lookup_append (a b : Store) (k : String) :
    (a ++ b).lookup k = optOr (a.lookup k) (b.lookup k) := by
  induction a with
  | nil => simp [optOr]
  | cons hd tl ih =>
    cases hd with
    | mk k1 v1 =>
      cases hb : (k == k1) with
      | true => simp [List.lookup, hb, optOr]
      | false => simp [List.lookup, hb, ih]

theorem optOr_assoc (a b c : Option Value) :
    optOr (optOr a b) c = optOr a (optOr b c) := by
  cases a <;> simp [optOr]

theorem chainLookup_concat (fs : Fs) (ctype : String) (xs : List String) (p k : String) :
    chainLookup fs ctype (xs ++ [p]) k
      = optOr (chainLookup fs ctype xs k) (fileLookup fs ctype p k) := by
  induction xs with
  | nil => cases h : fileLookup fs ctype p k <;> simp [chainLookup, optOr, h]
  | cons q rest ih => simp [chainLookup, ih, optOr_assoc]

theorem mergeOne_ok (fs : Fs) (opt : option) (ct p : String) (st st1 : Store)
    (h : mergeOne fs opt ct p st = (st1, none)) :
    ∃ es, fileEntries fs ct p = some es ∧ st1 = mergeStore es st := by
  unfold mergeOne at h
  cases hl : fs.lookup p with
  | none => rw [hl] at h; cases h
  | some f =>
    rw [hl] at h
    cases he : isSettingsFileEncrypted opt p with
    | true =>
      rw [he] at h
      simp only [if_true] at h
      cases hd : f.decryptOk with
      | true =>
        rw [hd] at h
        simp only [if_true] at h
        cases hp : f.parses.lookup ct with
        | none => rw [hp] at h; cases h
        | some es =>
          rw [hp] at h
          refine ⟨es, by simp [fileEntries, hl, hp], ?_⟩
          cases h; rfl
      | false => rw [hd] at h; simp at h
    | false =>
      rw [he] at h
      simp only [Bool.false_eq_true, if_false] at h
      cases hp : f.parses.lookup ct with
      | none => rw [hp] at h; cases h
      | some es =>
        rw [hp] at h
        refine ⟨es, by simp [fileEntries, hl, hp], ?_⟩
        cases h; rfl

theorem loadFilesSeq_lookup (fs : Fs) (opt : option) (ct : String) :
    ∀ (L : List String) (s0 s1 : Store),
      loadFilesSeq fs opt ct L s0 = (s1, none) →
      ∀ k, lookupStore s1 k = optOr (chainLookup fs ct L.reverse k) (lookupStore s0 k) := by
  intro L
  induction L with
  | nil =>
    intro s0 s1 h k
    cases h
    simp [chainLookup, optOr]
  | cons p rest ih =>
    intro s0 s1 h k
    unfold loadFilesSeq at h
    cases hm : mergeOne fs opt ct p s0 with
    | mk stm oe =>
      rw [hm] at h
      cases oe with
      | some e => simp at h
      | none =>
        simp only at h
        obtain ⟨es, hes, hstm⟩ := mergeOne_ok fs opt ct p s0 stm hm
        have hrec := ih stm s1 h k
        rw [List.reverse_cons, chainLookup_concat, optOr_assoc, hrec, hstm]
        unfold lookupStore mergeStore
        rw [lookup_append]
        have hfl : fileLookup fs ct p k = es.lookup k := by simp [fileLookup, hes]
        rw [hfl]

theorem loadFilesSeq_append (fs : Fs) (opt : option) (ct : String) :
    ∀ (L1 L2 : List String) (s0 : Store),
      loadFilesSeq fs opt ct (L1 ++ L2) s0 =
        (match loadFilesSeq fs opt ct L1 s0 with
         | (s, none) => loadFilesSeq fs opt ct L2 s
         | (s, some e) => (s, some e)) := by
  intro L1
  induction L1 with
  | nil => intro L2 s0; simp [loadFilesSeq]
  | cons p rest ih =>
    intro L2 s0
    simp only [List.cons_append, loadFilesSeq]
    cases hm : mergeOne fs opt ct p s0 with
    | mk stm oe => cases oe <;> simp [ih]

/-! # Claim theorems -/

/-- Claim C6: `isSettingsFileEncrypted` is the conjunction of: a key is
configured (the Go `aesKey` slice is non-nil), the encrypted suffix is
non-empty, and the file name ends with the suffix. In particular it is
false for every path when no key is configured, and false for every path
and key when the suffix is empty. -/
theorem c6_isEncrypted_iff_key_and_suffix (opt : option) (fname : String) :
    isSettingsFileEncrypted opt fname
      = (opt.aesKey.isSome && (!(opt.encryptedSuffix == "")) && hasSuffix fname opt.encryptedSuffix) := by
  unfold isSettingsFileEncrypted
  cases h : opt.aesKey with
  | none => simp [h]
  | some k =>
    simp only [h, Option.isNone_some, Bool.false_eq_true, if_false, Option.isSome_some, Bool.true_and]
    cases hs : (!(opt.encryptedSuffix == "")) && hasSuffix fname opt.encryptedSuffix <;> simp [hs]

/-- Claim C8: the watch latch — over any sequence of `watch` calls on a
fresh instance at most one filesystem-watch subscription is ever started,
and a second `watch` call (with any file list) after a first one is a
no-op on the instance state. -/
theorem c8_watch_at_most_one_subscription :
    (∀ calls : List (List String), (List.foldl watch watchInit calls).subs ≤ 1) ∧
    (∀ (st : WatchState) (c1 c2 : List String), watch (watch st c1) c2 = watch st c1) := by
  constructor
  · have key : ∀ (calls : List (List String)) (st : WatchState),
        (List.foldl watch st calls).subs ≤ (if st.armed then st.subs else st.subs + 1) := by
      intro calls
      induction calls with
      | nil => intro st; cases h : st.armed <;> simp [h]
      | cons c cs ih =>
        intro st
        have h1 := ih (watch st c)
        have harm : (watch st c).armed = true := by
          cases h : st.armed <;> simp [watch, h]
        rw [List.foldl_cons]
        refine le_trans h1 ?_
        rw [harm]
        simp only [if_true]
        cases h : st.armed <;> simp [watch, h]
    intro calls
    simpa [watchInit] using key calls watchInit
  · intro st c1 c2
    cases h : st.armed <;> simp [watch, h]

/-- Claim C9: lock discipline of the public methods, as event traces. The
getters, `Set`, `IsSet`, `ReadConfig` and `MergeConfig` access the store
only under the instance lock, but `LoadFromConfigServer` (via
`srv.Map(s.v.Set)`) and `LoadFromConfigServerWithRawYaml` (via raw
`s.v.SetConfigType` and `s.v.ReadConfig`) mutate the store with the lock
never taken, refuting the claim that every load path acquires the write
lock. -/
theorem c9_config_server_loads_bypass_lock :
    wellLocked getTrace = true ∧
    wellLocked setTrace = true ∧
    wellLocked isSetTrace = true ∧
    wellLocked readConfigTrace = true ∧
    wellLocked mergeConfigTrace = true ∧
    wellLocked (loadFromConfigServerTrace 1) = false ∧
    wellLocked loadFromConfigServerWithRawYamlTrace = false := by
  refine ⟨rfl, rfl, rfl, rfl, rfl, rfl, rfl⟩

/-- Claim C10: `SpringConfigServer.GetString` returns safely exactly when
the key is absent (giving `("", false)`) or maps to a string (giving the
string and `true`); any other stored value makes the unchecked `val.(string)`
assertion panic. -/
theorem c10_getString_panics_on_non_string (sources : List (List (String × Value))) (name : String) :
    (remoteGet sources name = none → remoteGetString sources name = GoResult.ok ("", false)) ∧
    (∀ s, remoteGet sources name = some (Value.vStr s) → remoteGetString sources name = GoResult.ok (s, true)) ∧
    (∀ v, remoteGet sources name = some v → (∀ s, v ≠ Value.vStr s) →
      remoteGetString sources name = GoResult.panicked "interface conversion: interface is not string") := by
  refine ⟨?_, ?_, ?_⟩
  · intro h; unfold remoteGetString; rw [h]
  · intro s h; unfold remoteGetString; rw [h]
  · intro v h hne
    unfold remoteGetString
    rw [h]
    cases v with
    | vStr s => exact absurd rfl (hne s)
    | vInt n => rfl
    | vBool b => rfl
    | vNull => rfl

/-- Claim C10 witness: a remote source mapping `k` to the integer 3 makes
`GetString "k"` panic. -/
theorem c10_witness :
    remoteGetString [[("k", Value.vInt 3)]] "k"
      = GoResult.panicked "interface conversion: interface is not string" :=
  (c10_getString_panics_on_non_string [[("k", Value.vInt 3)]] "k").2.2
    (Value.vInt 3) rfl (fun s h => by cases h)

/-- Claim C2 (code bug): with no options at all — so `enableInclude` is
false — `LoadFromFile` on an entry file carrying `include: b.yml` still
follows the include: the resolved chain is `[d/a.yml, d/b.yml]`, the load
succeeds, and key `b` of the included file ends up in the merged store. -/
theorem c2_include_followed_with_flag_unset :
    (applyOptfs (fillDefault optionNew) [] = Except.ok optDefault) ∧
    optDefault.enableInclude = false ∧
    (LoadFromFile fsInc [] "d/a.yml" []).map (fun o => o.chain) = some ["d/a.yml", "d/b.yml"] ∧
    (LoadFromFile fsInc [] "d/a.yml" []).bind (fun o => o.err) = none ∧
    (LoadFromFile fsInc [] "d/a.yml" []).bind (fun o => lookupStore o.store "b") = some (Value.vInt 1) := by
  refine ⟨rfl, rfl, by decide, by decide, by decide⟩

/-- Claim C1: the merge orchestration processes the chain in reverse
discovery order (definitionally: `loadConfigFiles` runs `loadFilesSeq` on
the reversed chain), and consequently, whenever the whole merge succeeds,
every key resolves to the value of the file earliest in discovery order
that defines it — the entry file wins on conflicts — with keys defined in
no chain file falling through to the pre-merge store, so the merged store
holds the union of all chain keys. -/
theorem c1_reverse_merge_entry_wins (fs : Fs) (opt : option) (ct : String)
    (chain : List String) (s0 s1 : Store)
    (h : loadConfigFiles fs opt ct chain s0 = (s1, none)) :
    (loadConfigFiles fs opt ct chain s0 = loadFilesSeq fs opt ct chain.reverse s0) ∧
    ∀ k, lookupStore s1 k = optOr (chainLookup fs ct chain k) (lookupStore s0 k) := by
  refine ⟨rfl, fun k => ?_⟩
  unfold loadConfigFiles at h
  have := loadFilesSeq_lookup fs opt ct chain.reverse s0 s1 h k
  rwa [List.reverse_reverse] at this

/-- Claim C1 witness: on the two-file chain `[e.yml, base.yml]` with
`e.yml = (a: 2)` over `base.yml = (a: 1, b: 1)`, the merged store gives
the entry value for the overlapping key `a` and the included value for
`b`. -/
theorem c1_witness :
    (lookupStore c1Merged "a" = optOr (chainLookup fsC1 "yml" ["e.yml", "base.yml"] "a") (lookupStore [] "a") ∧
     lookupStore c1Merged "b" = optOr (chainLookup fsC1 "yml" ["e.yml", "base.yml"] "b") (lookupStore [] "b")) ∧
    (lookupStore c1Merged "a" = some (Value.vInt 2) ∧ lookupStore c1Merged "b" = some (Value.vInt 1)) :=
  ⟨⟨(c1_reverse_merge_entry_wins fsC1 optDefault "yml" ["e.yml", "base.yml"] [] c1Merged (by decide)).2 "a",
    (c1_reverse_merge_entry_wins fsC1 optDefault "yml" ["e.yml", "base.yml"] [] c1Merged (by decide)).2 "b"⟩,
   by decide, by decide⟩

/-- Claim C7: when the merge phase fails at file `p` after successfully
processing the files `pre` (those later in the chain, processed first), the
operation returns the error of `p` immediately, the store keeps exactly the
merges of `pre` (no rollback), and the remaining files `post` — earlier in
the chain, later in processing order — are never merged, whatever they
are. -/
theorem c7_first_failure_no_rollback (fs : Fs) (opt : option) (ct : String)
    (pre post : List String) (p : String) (s0 s1 : Store) (e : Err)
    (h1 : loadFilesSeq fs opt ct pre s0 = (s1, none))
    (h2 : mergeOne fs opt ct p s1 = (s1, some e)) :
    loadConfigFiles fs opt ct ((pre ++ p :: post).reverse) s0 = (s1, some e) := by
  unfold loadConfigFiles
  rw [List.reverse_reverse, loadFilesSeq_append, h1]
  simp only [loadFilesSeq, h2]

/-- Claim C7 witness: in the chain `[c.yml, bad.yml, a.yml]` the merge
phase processes `a.yml` (successfully), then fails on `bad.yml`; the result
is the wrapped parse error of `bad.yml`, with the merge of `a.yml` kept and
`c.yml` untouched. -/
theorem c7_witness :
    loadConfigFiles fs7 optDefault "yml" ((["a.yml"] ++ "bad.yml" :: ["c.yml"]).reverse) []
      = ([("a", Value.vInt 1)],
         some (Err.wrapfPath "merge config file" "bad.yml" (Err.baseErr "viper: parse error"))) :=
  c7_first_failure_no_rollback fs7 optDefault "yml" ["a.yml"] ["c.yml"] "bad.yml"
    [] [("a", Value.vInt 1)]
    (Err.wrapfPath "merge config file" "bad.yml" (Err.baseErr "viper: parse error"))
    (by decide) (by decide)

theorem lookup_mem_keys (fs : Fs) (cur : String) (f : SrcFile)
    (h : fs.lookup cur = some f) : cur ∈ fsKeys fs := by
  induction fs with
  | nil => cases h
  | cons hd tl ih =>
    cases hd with
    | mk k v =>
      cases hb : (cur == k) with
      | true =>
        have hk : cur = k := by simpa using hb
        simp [fsKeys, hk]
      | false =>
        simp only [List.lookup, hb] at h
        have := ih h
        simp only [fsKeys, List.map_cons, List.mem_cons]
        right
        simpa [fsKeys] using this

theorem length_filter_ne_lt (l : List String) (a : String) (ha : a ∈ l) :
    (l.filter (fun x => !(x == a))).length < l.length := by
  induction l with
  | nil => cases ha
  | cons h t ih =>
    cases hb : (h == a) with
    | false =>
      have hne : h ≠ a := by simpa using hb
      have hat : a ∈ t := by
        rcases List.mem_cons.mp ha with heq | hm
        · exact absurd heq.symm hne
        · exact hm
      simp only [List.filter_cons, hb, Bool.not_false, if_true, List.length_cons]
      exact Nat.succ_lt_succ (ih hat)
    | true =>
      simp only [List.filter_cons, hb, Bool.not_true, Bool.false_eq_true, if_false]
      exact Nat.lt_succ_of_le (List.length_filter_le _ _)

theorem measure_decreases (fs : Fs) (cfg : List String) (cur cand : String) (f : SrcFile)
    (hcur : fs.lookup cur = some f) (hcand : cfg.contains cand = false) :
    resolveMeasure fs (cfg ++ [cand]) cand < resolveMeasure fs cfg cur := by
  have hcurm : cur ∈ fsKeys fs := lookup_mem_keys fs cur f hcur
  have hcandcfg : cand ∉ cfg := by simpa using hcand
  have hpred : ∀ x : String,
      (!(cfg ++ [cand]).contains x) = ((!cfg.contains x) && !(x == cand)) := by
    intro x
    by_cases h1 : x ∈ cfg <;> by_cases h2 : x = cand <;> simp [h1, h2]
  have hsplit : ((fsKeys fs).filter (fun p => !(cfg ++ [cand]).contains p))
      = ((fsKeys fs).filter (fun p => !cfg.contains p)).filter (fun p => !(p == cand)) := by
    rw [List.filter_filter]
    exact List.filter_congr (fun a _ => by rw [hpred a]; exact Bool.and_comm _ _)
  unfold resolveMeasure
  rw [hsplit]
  have hone : (if (fsKeys fs).contains cur then 1 else 0) = 1 := by simp [hcurm]
  rw [hone]
  by_cases hk : cand ∈ fsKeys fs
  · have hmemF : cand ∈ (fsKeys fs).filter (fun p => !cfg.contains p) :=
      List.mem_filter.mpr ⟨hk, by simp [hcandcfg]⟩
    have hlt := length_filter_ne_lt ((fsKeys fs).filter (fun p => !cfg.contains p)) cand hmemF
    have htwo : (if (fsKeys fs).contains cand then 1 else 0) = 1 := by simp [hk]
    rw [htwo]
    omega
  · have hFeq : (((fsKeys fs).filter (fun p => !cfg.contains p)).filter (fun p => !(p == cand)))
        = (fsKeys fs).filter (fun p => !cfg.contains p) := by
      apply List.filter_eq_self.mpr
      intro a ha
      have hmem : a ∈ fsKeys fs := List.mem_of_mem_filter ha
      have hane : a ≠ cand := fun hq => hk (hq ▸ hmem)
      simpa using hane
    rw [hFeq]
    have hzero : (if (fsKeys fs).contains cand then 1 else 0) = 0 := by simp [hk]
    rw [hzero]
    omega

theorem resolveLoop_terminates (fs : Fs) (opt : option) (dir : String) :
    ∀ (fuel : Nat) (cfg : List String) (cur : String) (st : Store) (ct : String),
      resolveMeasure fs cfg cur < fuel →
      (resolveLoop fs opt dir fuel cfg cur st ct).isSome = true := by
  intro fuel
  induction fuel with
  | zero => intro cfg cur st ct h; exact absurd h (Nat.not_lt_zero _)
  | succ n ih =>
    intro cfg cur st ct h
    simp only [resolveLoop]
    split
    · rfl
    · split
      · rfl
      · split
        · rfl
        · split
          · rfl
          · rename_i _x1 f hl _x2 store1 _hr _hinc hcon
            apply ih
            have hconF : cfg.contains (joinPath dir (storeGetString store1 settingsIncludeKey)) = false := by
              cases hx : cfg.contains (joinPath dir (storeGetString store1 settingsIncludeKey)) with
              | false => rfl
              | true => exact absurd hx hcon
            have hdec := measure_decreases fs cfg cur
              (joinPath dir (storeGetString store1 settingsIncludeKey)) f hl hconF
            omega

theorem resolveLoop_chain_invariant (fs : Fs) (opt : option) (dir : String) :
    ∀ (fuel : Nat) (cfg : List String) (cur : String) (st : Store) (ct : String) (r : ResOut),
      resolveLoop fs opt dir fuel cfg cur st ct = some r →
      cfg ≠ [] → cfg.Nodup → (∀ p ∈ cfg.tail, ∃ inc, p = joinPath dir inc) →
      (r.chain.Nodup ∧ r.chain.head? = cfg.head? ∧
        ∀ p ∈ r.chain.tail, ∃ inc, p = joinPath dir inc) := by
  intro fuel
  induction fuel with
  | zero => intro cfg cur st ct r h; simp [resolveLoop] at h
  | succ n ih =>
    intro cfg cur st ct r h hne hnd htail
    simp only [resolveLoop] at h
    split at h
    · cases h
      exact ⟨hnd, rfl, htail⟩
    · split at h
      · cases h
        exact ⟨hnd, rfl, htail⟩
      · split at h
        · cases h
          exact ⟨hnd, rfl, htail⟩
        · split at h
          · cases h
            exact ⟨hnd, rfl, htail⟩
          · rename_i _x1 f _hl _x2 store1 _hr _hinc hcon
            have hnotmem : (joinPath dir (storeGetString store1 settingsIncludeKey)) ∉ cfg := by
              intro hmem
              exact hcon (by simp [hmem])
            have hne2 : cfg ++ [joinPath dir (storeGetString store1 settingsIncludeKey)] ≠ [] := by
              simp
            have hnd2 : (cfg ++ [joinPath dir (storeGetString store1 settingsIncludeKey)]).Nodup := by
              rw [List.nodup_append]
              exact ⟨hnd, List.nodup_singleton _,
                fun a ha hb => hnotmem ((List.mem_singleton.mp hb) ▸ ha)⟩
            have htail2 : ∀ p ∈ (cfg ++ [joinPath dir (storeGetString store1 settingsIncludeKey)]).tail,
                ∃ inc, p = joinPath dir inc := by
              have htl : (cfg ++ [joinPath dir (storeGetString store1 settingsIncludeKey)]).tail
                  = cfg.tail ++ [joinPath dir (storeGetString store1 settingsIncludeKey)] := by
                cases cfg with
                | nil => exact absurd rfl hne
                | cons x xs => rfl
              rw [htl]
              intro p hp
              rcases List.mem_append.mp hp with hp1 | hp2
              · exact htail p hp1
              · exact ⟨storeGetString store1 settingsIncludeKey, List.mem_singleton.mp hp2⟩
            have hres := ih (cfg ++ [joinPath dir (storeGetString store1 settingsIncludeKey)])
              (joinPath dir (storeGetString store1 settingsIncludeKey)) store1
              (configTypeOf opt.encryptedSuffix cur) r h hne2 hnd2 htail2
            refine ⟨hres.1, ?_, hres.2.2⟩
            rw [hres.2.1]
            cases cfg with
            | nil => exact absurd rfl hne
            | cons x xs => rfl

/-- Claim C3: include resolution (a) terminates — fuel `fs.length + 2`
always suffices for the unbounded Go loop — producing a chain that starts
at the entry file, contains no path twice, and whose every element after
the entry is the join of some include value onto the entry-file directory
(never the directory of the including file); and (b) when a resolved
candidate already occurs in the chain, the loop returns at once with the
chain unchanged (candidate not appended) and no error. -/
theorem c3_resolution_terminates_nodup_cycle_stops (fs : Fs) (opt : option)
    (entryFile : String) (s0 : Store) :
    (∃ r : ResOut,
        resolveLoop fs opt (dirPath entryFile) (fs.length + 2) [entryFile] entryFile s0 "" = some r ∧
        r.chain.Nodup ∧ r.chain.head? = some entryFile ∧
        ∀ p ∈ r.chain.tail, ∃ inc, p = joinPath (dirPath entryFile) inc) ∧
    (∀ (fuel : Nat) (cfg : List String) (cur : String) (st : Store) (ct : String)
        (f : SrcFile) (store1 : Store),
        fs.lookup cur = some f →
        readOne opt cur f = Except.ok store1 →
        (storeGetString store1 settingsIncludeKey == "") = false →
        cfg.contains (joinPath (dirPath entryFile) (storeGetString store1 settingsIncludeKey)) = true →
        resolveLoop fs opt (dirPath entryFile) (fuel + 1) cfg cur st ct
          = some ⟨cfg, store1, configTypeOf opt.encryptedSuffix cur, none⟩) := by
  constructor
  · have hm : resolveMeasure fs [entryFile] entryFile < fs.length + 2 := by
      unfold resolveMeasure
      have h1 : ((fsKeys fs).filter (fun p => !([entryFile] : List String).contains p)).length
          ≤ (fsKeys fs).length := List.length_filter_le _ _
      have h2 : (fsKeys fs).length = fs.length := List.length_map _ _
      cases hc : (fsKeys fs).contains entryFile <;> simp only [hc, if_true, Bool.false_eq_true, if_false] <;> omega
    have hs := resolveLoop_terminates fs opt (dirPath entryFile)
      (fs.length + 2) [entryFile] entryFile s0 "" hm
    obtain ⟨r, hr⟩ := Option.isSome_iff_exists.mp hs
    have hinv := resolveLoop_chain_invariant fs opt (dirPath entryFile)
      (fs.length + 2) [entryFile] entryFile s0 "" r hr (by simp) (by simp) (by simp)
    exact ⟨r, hr, hinv.1, by simpa using hinv.2.1, hinv.2.2⟩
  · intro fuel cfg cur st ct f store1 hlk hro hinc hcon
    simp only [resolveLoop, hlk, hro, hinc, Bool.false_eq_true, if_false, hcon, if_true]

/-- Claim C3 witness: on the cyclic pair `d/a.yml ↔ d/b.yml`, the loop
state that has chain `[d/a.yml, d/b.yml]` and re-resolves the include of
`d/b.yml` back to `d/a.yml` stops immediately: same chain, no error. -/
theorem c3_witness :
    resolveLoop fsCyc optDefault (dirPath "d/a.yml") 1 ["d/a.yml", "d/b.yml"] "d/b.yml" [] "yml"
      = some ⟨["d/a.yml", "d/b.yml"], [("include", Value.vStr "a.yml")], "yml", none⟩ :=
  (c3_resolution_terminates_nodup_cycle_stops fsCyc optDefault "d/a.yml" []).2 0
    ["d/a.yml", "d/b.yml"] "d/b.yml" [] "yml"
    { parses := [("yml", [("include", Value.vStr "a.yml")])] }
    [("include", Value.vStr "a.yml")]
    rfl rfl (by decide) (by decide)

theorem readOne_error_shape (opt : option) (cur : String) (f : SrcFile) (e : Err)
    (h : readOne opt cur f = Except.error e) :
    (∃ fmt inner, e = Err.wrapfPath fmt cur inner ∧
      f.parses.lookup (configTypeOf opt.encryptedSuffix cur) = none) ∨
    (isSettingsFileEncrypted opt cur = true ∧ f.decryptOk = false ∧
      e = Err.baseErr f.decryptErrMsg) := by
  unfold readOne at h
  split at h
  · split at h
    · split at h
      · cases h
      · rename_i _henc _hdec _x hp
        cases h
        exact Or.inl ⟨_, _, rfl, hp⟩
    · rename_i henc hdec
      cases h
      have hdec2 : f.decryptOk = false := by
        cases hx : f.decryptOk with
        | false => rfl
        | true => exact absurd hx hdec
      exact Or.inr ⟨henc, hdec2, rfl⟩
  · split at h
    · cases h
    · rename_i _henc _x hp
      cases h
      exact Or.inl ⟨_, _, rfl, hp⟩

theorem resolveLoop_error_shape (fs : Fs) (opt : option) (dir : String) :
    ∀ (fuel : Nat) (cfg : List String) (cur : String) (st : Store) (ct : String) (r : ResOut) (e : Err),
      resolveLoop fs opt dir fuel cfg cur st ct = some r → r.err = some e →
      (∃ fmt p inner, e = Err.wrapfPath fmt p inner ∧ fs.lookup p = none) ∨
      (∃ fmt p inner g, e = Err.wrapfPath fmt p inner ∧ fs.lookup p = some g ∧
        g.parses.lookup (configTypeOf opt.encryptedSuffix p) = none) ∨
      (∃ p g, fs.lookup p = some g ∧ isSettingsFileEncrypted opt p = true ∧
        g.decryptOk = false ∧ e = Err.baseErr g.decryptErrMsg) := by
  intro fuel
  induction fuel with
  | zero => intro cfg cur st ct r e h _; simp [resolveLoop] at h
  | succ n ih =>
    intro cfg cur st ct r e h he
    simp only [resolveLoop] at h
    split at h
    · rename_i _x hnone
      cases h
      cases he
      exact Or.inl ⟨_, cur, _, rfl, hnone⟩
    · split at h
      · rename_i _x1 f hl _x2 e1 hr
        cases h
        cases he
        rcases readOne_error_shape opt cur f e hr with ⟨fmt, inner, he2, hp⟩ | ⟨henc, hdec, he2⟩
        · exact Or.inr (Or.inl ⟨fmt, cur, inner, f, he2, hl, hp⟩)
        · exact Or.inr (Or.inr ⟨cur, f, hl, henc, hdec, he2⟩)
      · split at h
        · cases h
          cases he
        · split at h
          · cases h
            cases he
          · exact ih _ _ _ _ r e h he

theorem mergeOne_error_shape (fs : Fs) (opt : option) (ct p : String) (st : Store) (e : Err)
    (h : (mergeOne fs opt ct p st).2 = some e) :
    (∃ fmt inner, e = Err.wrapfPath fmt p inner ∧ fs.lookup p = none) ∨
    (∃ fmt inner g, e = Err.wrapfPath fmt p inner ∧ fs.lookup p = some g ∧
      g.parses.lookup ct = none) ∨
    (∃ g, fs.lookup p = some g ∧ isSettingsFileEncrypted opt p = true ∧
      g.decryptOk = false ∧ e = Err.baseErr g.decryptErrMsg) := by
  unfold mergeOne at h
  split at h
  · rename_i _x hnone
    cases h
    exact Or.inl ⟨_, _, rfl, hnone⟩
  · split at h
    · split at h
      · split at h
        · cases h
        · rename_i _x1 f hl _henc _hdec _x2 hp
          cases h
          exact Or.inr (Or.inl ⟨_, _, f, rfl, hl, hp⟩)
      · rename_i _x f hl henc hdec
        cases h
        have hdec2 : f.decryptOk = false := by
          cases hx : f.decryptOk with
          | false => rfl
          | true => exact absurd hx hdec
        exact Or.inr (Or.inr ⟨f, hl, henc, hdec2, rfl⟩)
    · split at h
      · cases h
      · rename_i _x1 f hl _henc _x2 hp
        cases h
        exact Or.inr (Or.inl ⟨_, _, f, rfl, hl, hp⟩)

theorem loadFilesSeq_error_shape (fs : Fs) (opt : option) (ct : String) :
    ∀ (L : List String) (s0 s1 : Store) (e : Err),
      loadFilesSeq fs opt ct L s0 = (s1, some e) →
      (∃ fmt p inner, e = Err.wrapfPath fmt p inner ∧ fs.lookup p = none) ∨
      (∃ fmt p inner g, e = Err.wrapfPath fmt p inner ∧ fs.lookup p = some g ∧
        g.parses.lookup ct = none) ∨
      (∃ p g, fs.lookup p = some g ∧ isSettingsFileEncrypted opt p = true ∧
        g.decryptOk = false ∧ e = Err.baseErr g.decryptErrMsg) := by
  intro L
  induction L with
  | nil => intro s0 s1 e h; simp [loadFilesSeq] at h
  | cons p rest ih =>
    intro s0 s1 e h
    simp only [loadFilesSeq] at h
    split at h
    · rename_i _x st1 hm
      exact ih st1 s1 e h
    · rename_i _x st1 e1 hm
      injection h with hA hB
      injection hB with hC
      subst hC
      have h2 : (mergeOne fs opt ct p s0).2 = some e1 := by rw [hm]
      rcases mergeOne_error_shape fs opt ct p s0 e1 h2 with
        ⟨fmt, inner, he2, hnone⟩ | ⟨fmt, inner, g, he2, hl, hp⟩ | ⟨g, hl, henc, hdec, he2⟩
      · exact Or.inl ⟨fmt, p, inner, he2, hnone⟩
      · exact Or.inr (Or.inl ⟨fmt, p, inner, g, he2, hl, hp⟩)
      · exact Or.inr (Or.inr ⟨p, g, hl, henc, hdec, he2⟩)

theorem getLastD_concat (l : List String) (a d : String) : (l ++ [a]).getLastD d = a := by
  simp [List.getLastD_concat]

theorem resolveLoop_final_ctype (fs : Fs) (opt : option) (dir : String) :
    ∀ (fuel : Nat) (cfg : List String) (cur : String) (st : Store) (ct : String) (r : ResOut),
      resolveLoop fs opt dir fuel cfg cur st ct = some r →
      r.err = none →
      cfg.getLastD "" = cur →
      r.ctype = configTypeOf opt.encryptedSuffix (r.chain.getLastD "") := by
  intro fuel
  induction fuel with
  | zero => intro cfg cur st ct r h _ _; simp [resolveLoop] at h
  | succ n ih =>
    intro cfg cur st ct r h herr hlast
    simp only [resolveLoop] at h
    split at h
    · cases h
      cases herr
    · split at h
      · cases h
        cases herr
      · split at h
        · cases h
          show configTypeOf opt.encryptedSuffix cur = configTypeOf opt.encryptedSuffix (cfg.getLastD "")
          rw [hlast]
        · split at h
          · cases h
            show configTypeOf opt.encryptedSuffix cur = configTypeOf opt.encryptedSuffix (cfg.getLastD "")
            rw [hlast]
          · exact ih _ _ _ _ r h herr (getLastD_concat cfg _ "")

/-- Claim C4 (amended): every error aborting `LoadFromFile` is wrapped with
the path of the offending file — the wrap names a path at which the failure
actually happened: a `Wrapf` whose path is missing from the filesystem
(entry check and both `os.Open` sites), the `is not a file` `Errorf` on an
entry that exists but is not regular, or a `Wrapf` whose path holds a file
that does not parse under the serialization type the store was fed for it
(the own type of that file in the resolution loop, the last chain file type
in the merge phase) — or the pathless `apply options` wrap, EXCEPT a
decrypt-wrapper construction failure, which is returned bare exactly as the
collaborator produced it (the `return err` at lines 573 and 628), with no
wrap and no path. -/
theorem c4_errors_wrapped_except_decrypt (fs : Fs) (s0 : Store) (entryFile : String)
    (opts : List OptionF) (out : LoadOutcome) (e : Err)
    (h : LoadFromFile fs s0 entryFile opts = some out) (he : out.err = some e) :
    (∃ fmt p inner, e = Err.wrapfPath fmt p inner ∧ fs.lookup p = none) ∨
    (e = Err.errorfPath "is not a file" entryFile ∧
      ∃ g, fs.lookup entryFile = some g ∧ g.isRegular = false) ∨
    (∃ inner, e = Err.wrapCtx "apply options" inner) ∨
    (∃ opt, applyOptfs (fillDefault optionNew) opts = Except.ok opt ∧
      ((∃ fmt p inner g, e = Err.wrapfPath fmt p inner ∧ fs.lookup p = some g ∧
          (g.parses.lookup (configTypeOf opt.encryptedSuffix p) = none ∨
           g.parses.lookup (configTypeOf opt.encryptedSuffix (out.chain.getLastD "")) = none)) ∨
       (∃ p g, fs.lookup p = some g ∧ isSettingsFileEncrypted opt p = true ∧
          g.decryptOk = false ∧ e = Err.baseErr g.decryptErrMsg))) := by
  unfold LoadFromFile at h
  cases hlk : fs.lookup entryFile with
  | none =>
    simp only [hlk] at h
    cases h
    cases he
    exact Or.inl ⟨_, entryFile, _, rfl, hlk⟩
  | some f =>
    simp only [hlk] at h
    cases hreg : f.isRegular with
    | false =>
      simp only [hreg, Bool.false_eq_true, if_false] at h
      cases h
      cases he
      exact Or.inr (Or.inl ⟨rfl, f, rfl, hreg⟩)
    | true =>
      simp only [hreg, if_true] at h
      cases hopt : applyOptfs (fillDefault optionNew) opts with
      | error e0 =>
        simp only [hopt] at h
        cases h
        cases he
        exact Or.inr (Or.inr (Or.inl ⟨_, rfl⟩))
      | ok opt =>
        simp only [hopt] at h
        cases hres : resolveLoop fs opt (dirPath entryFile) (fs.length + 2) [entryFile] entryFile s0 "" with
        | none =>
          simp only [hres] at h
          cases h
        | some r =>
          simp only [hres] at h
          cases herr : r.err with
          | some e1 =>
            simp only [herr] at h
            cases h
            cases he
            rcases resolveLoop_error_shape fs opt (dirPath entryFile)
                (fs.length + 2) [entryFile] entryFile s0 "" r e hres herr with
              ⟨fmt, p, inner, he2, hnone⟩ | ⟨fmt, p, inner, g, he2, hl, hp⟩ |
              ⟨p, g, hl, henc, hdec, he2⟩
            · exact Or.inl ⟨fmt, p, inner, he2, hnone⟩
            · exact Or.inr (Or.inr (Or.inr
                ⟨opt, rfl, Or.inl ⟨fmt, p, inner, g, he2, hl, Or.inl hp⟩⟩))
            · exact Or.inr (Or.inr (Or.inr ⟨opt, rfl, Or.inr ⟨p, g, hl, henc, hdec, he2⟩⟩))
          | none =>
            simp only [herr] at h
            cases hmg : loadConfigFiles fs opt r.ctype r.chain r.store with
            | mk st oe =>
              cases oe with
              | some e1 =>
                simp only [hmg] at h
                cases h
                cases he
                have hct : r.ctype = configTypeOf opt.encryptedSuffix (r.chain.getLastD "") :=
                  resolveLoop_final_ctype fs opt (dirPath entryFile)
                    (fs.length + 2) [entryFile] entryFile s0 "" r hres herr rfl
                have hseq : loadFilesSeq fs opt r.ctype r.chain.reverse r.store = (st, some e) := hmg
                rcases loadFilesSeq_error_shape fs opt r.ctype r.chain.reverse r.store st e hseq with
                  ⟨fmt, p, inner, he2, hnone⟩ | ⟨fmt, p, inner, g, he2, hl, hp⟩ |
                  ⟨p, g, hl, henc, hdec, he2⟩
                · exact Or.inl ⟨fmt, p, inner, he2, hnone⟩
                · rw [hct] at hp
                  exact Or.inr (Or.inr (Or.inr
                    ⟨opt, rfl, Or.inl ⟨fmt, p, inner, g, he2, hl, Or.inr hp⟩⟩))
                · exact Or.inr (Or.inr (Or.inr ⟨opt, rfl, Or.inr ⟨p, g, hl, henc, hdec, he2⟩⟩))
              | none =>
                simp only [hmg] at h
                cases h
                cases he

/-- Claim C4 counterexample: a decrypt-wrapper construction failure on the
encrypted entry file is returned as the bare collaborator error — it names
no file path at all, refuting "every abort error is wrapped with the
offending path". -/
theorem c4_counterexample :
    ((LoadFromFile fsEnc [] "d/s.yml.enc" [WithAesEncrypt [7]]).bind (fun o => o.err)
        = some (Err.baseErr "cipher: bad key")) ∧
    errMentions (Err.baseErr "cipher: bad key") "d/s.yml.enc" = false := by
  exact ⟨by decide, by decide⟩

/-- Claim C4 witness: a missing entry file produces the path-carrying wrap
`check config file path` whose path, the entry `x.yml`, is exactly the file
missing from the (empty) filesystem — the first disjunct. -/
theorem c4_witness :
    (∃ fmt p inner, c4WitnessErr = Err.wrapfPath fmt p inner ∧ ([] : Fs).lookup p = none) ∨
    (c4WitnessErr = Err.errorfPath "is not a file" "x.yml" ∧
      ∃ g, ([] : Fs).lookup "x.yml" = some g ∧ g.isRegular = false) ∨
    (∃ inner, c4WitnessErr = Err.wrapCtx "apply options" inner) ∨
    (∃ opt, applyOptfs (fillDefault optionNew) ([] : List OptionF) = Except.ok opt ∧
      ((∃ fmt p inner g, c4WitnessErr = Err.wrapfPath fmt p inner ∧ ([] : Fs).lookup p = some g ∧
          (g.parses.lookup (configTypeOf opt.encryptedSuffix p) = none ∨
           g.parses.lookup (configTypeOf opt.encryptedSuffix "x.yml") = none)) ∨
       (∃ p g, ([] : Fs).lookup p = some g ∧ isSettingsFileEncrypted opt p = true ∧
          g.decryptOk = false ∧ c4WitnessErr = Err.baseErr g.decryptErrMsg))) :=
  c4_errors_wrapped_except_decrypt [] [] "x.yml" []
    ⟨["x.yml"], [], some c4WitnessErr⟩ c4WitnessErr rfl rfl

/-- Claim C5 (amended): whenever include resolution ends without error, the
serialization type it leaves set on the viper instance — the single type
`LoadFromFile` then hands to `loadConfigFiles` for every merge — is the
suffix-stripped extension type of the LAST file of the chain (the last file
the loop read), not a per-file type; `loadConfigFiles` itself never calls
`SetConfigType`, so a chain mixing extensions parses every file under this
one type. -/
theorem c5_single_type_for_all_merges (fs : Fs) (opt : option) (dir : String) :
    ∀ (fuel : Nat) (cfg : List String) (cur : String) (st : Store) (ct : String) (r : ResOut),
      resolveLoop fs opt dir fuel cfg cur st ct = some r →
      r.err = none →
      cfg.getLastD "" = cur →
      r.ctype = configTypeOf opt.encryptedSuffix (r.chain.getLastD "") :=
  resolveLoop_final_ctype fs opt dir

/-- Claim C5 counterexample: in the mixed chain `[d/a.yml, d/b.toml]` the
code aborts the merge of the YAML entry with a parse error (it fed the
store the type `toml` for it), even though `d/a.yml` parses fine under the
type derived from the own extension of that file, as the per-file-type
merge phase written from the spec words (`specLoadConfigFiles`) shows by
succeeding on the same chain. -/
theorem c5_counterexample :
    ((LoadFromFile fsMix [] "d/a.yml" []).bind (fun o => o.err)
        = some (Err.wrapfPath "merge config file" "d/a.yml" (Err.baseErr "viper: parse error"))) ∧
    ((specLoadConfigFiles fsMix optDefault ["d/a.yml", "d/b.toml"] [("b", Value.vInt 1)]).2 = none) ∧
    (configTypeOf optDefault.encryptedSuffix "d/a.yml" = "yml") := by
  refine ⟨by decide, by decide, by decide⟩

/-- Claim C5 witness: on `fsMix` the resolution loop ends with type `toml`
— the type of the last chain file `d/b.toml` — which is the single type
used to merge both files. -/
theorem c5_witness :
    ("toml" : String) = configTypeOf optDefault.encryptedSuffix "d/b.toml" :=
  c5_single_type_for_all_merges fsMix optDefault "d" 4 ["d/a.yml"] "d/a.yml" [] ""
    ⟨["d/a.yml", "d/b.toml"], [("b", Value.vInt 1)], "toml", none⟩ (by decide) rfl rfl

end GoConfig
